import Mathlib

/-!
Shallow embedding of the coinalyze liquidation-alarm scanner
(`src/__main__.py`) and proofs about its event-detection core.

Candle dictionaries are modelled as association lists of Python values;
absent keys yield `PyVal.none` as Python's `dict.get` does.  Operations
that can raise in Python (`>` against `None`, `int(...)` on a non-numeric
value, `datetime.fromtimestamp` on a non-number) are modelled in the
`Except Unit` monad.  The mutable `scanned_data` set is threaded as an
explicit `List Key`, and each handler additionally returns the list of
announcements (console print + speech) it emitted.
-/

namespace Coinalyze

/-- A Python value as it occurs in a parsed candle dictionary:
an integer, a string, or `None`. -/
inductive PyVal where
  | int (n : Int)
  | str (s : String)
  | none
deriving DecidableEq, Repr

/-- `history.get(k)`: look a key up in a candle dictionary, `None` when
absent (the default of Python's `dict.get`). -/
def dget (history : List (String × PyVal)) (k : String) : PyVal :=
  match history.find? (fun p => p.1 == k) with
  | Option.some p => p.2
  | Option.none => PyVal.none

/-- Python's `v > n` for `n` an int: defined for ints, raises `TypeError`
for `None` or a string. -/
def pyGt (v : PyVal) (n : Int) : Except Unit Bool :=
  match v with
  | PyVal.int m => Except.ok (decide (n < m))
  | _ => Except.error ()

/-- Parse a non-empty run of decimal digits, accumulating the value;
any non-digit character fails. -/
def decDigitsAux : List Char → Nat → Option Nat
  | [], acc => Option.some acc
  | c :: cs, acc =>
      if c.isDigit then decDigitsAux cs (acc * 10 + (c.toNat - 48))
      else Option.none

/-- Parse a Python integer literal (optional leading minus, then decimal
digits); anything else — including the empty string — fails. -/
def pyStrToInt (s : String) : Option Int :=
  match s.data with
  | [] => Option.none
  | '-' :: [] => Option.none
  | '-' :: c :: cs => (decDigitsAux (c :: cs) 0).map (fun n => -(n : Int))
  | cs => (decDigitsAux cs 0).map (fun n => (n : Int))

/-- Python's `int(v)`: the identity on ints, parses integer-literal
strings, raises on `None` and non-numeric strings. -/
def pyToInt (v : PyVal) : Except Unit Int :=
  match v with
  | PyVal.int n => Except.ok n
  | PyVal.str s =>
      match pyStrToInt s with
      | Option.some n => Except.ok n
      | Option.none => Except.error ()
  | PyVal.none => Except.error ()

/-- `datetime.fromtimestamp(v)` as used in the announcement lines:
succeeds exactly on numbers, raises `TypeError` otherwise. -/
def fromtimestamp (v : PyVal) : Except Unit Int :=
  match v with
  | PyVal.int n => Except.ok n
  | _ => Except.error ()

/-- Round `n` to the nearest multiple of `m` (with `m > 0`), ties to the
even multiple — the behaviour of CPython's `round` on ints. -/
def roundHalfEvenNat (n m : Nat) : Nat :=
  let q := n / m
  let r := n % m
  if 2 * r < m then q * m
  else if m < 2 * r then (q + 1) * m
  else if q % 2 = 0 then q * m else (q + 1) * m

/-- Python's `round(n, ndigits)` for a non-negative int `n`: with a
negative `ndigits` it rounds to the nearest `10 ^ (-ndigits)`
(half to even); with `ndigits ≥ 0` it returns `n` unchanged. -/
def pyRound (n : Nat) (ndigits : Int) : Nat :=
  if 0 ≤ ndigits then n else roundHalfEvenNat n (10 ^ (-ndigits).toNat)

/-- The environment-derived configuration values the detector reads. -/
structure Config where
  MINIMAL_LIQUIDATION : Int
  MINIMAL_OPEN_INTEREST : Int
  ROUNDED_DIFFERENCE_OPEN_INTEREST : Int
deriving DecidableEq, Repr

/-- A dedup key stored in `scanned_data`: the 3-tuple
`(l_time, direction, liquidation_amount)` for liquidations and the
2-tuple `(candle_time, rounded_difference)` for open interest.  Python
tuples of different arity are never equal, which the two constructors
reflect.  The time and amount components hold the raw dictionary values. -/
inductive Key where
  | liq (t : PyVal) (direction : String) (amount : PyVal)
  | oi (t : PyVal) (rounded_difference : Nat)
deriving DecidableEq, Repr

/-- One announcement (console line + speech call), carrying the data the
source interpolates into it. -/
inductive Announcement where
  | liq (direction : String) (amount : PyVal) (time : Int)
  | oi (difference : Nat) (time : Int)
deriving DecidableEq, Repr

/-- The inner `_handle_liquidation(liquidation_amount, direction)` closure:
build the key, and when it is unseen announce (which formats
`datetime.fromtimestamp(l_time)`, raising unless `l_time` is a number)
and add the key to `scanned_data`. -/
def _handle_liquidation (l_time : PyVal) (liquidation_amount : PyVal)
    (direction : String) (scanned_data : List Key) :
    Except Unit (List Key × List Announcement) :=
  let liquidation_tuple := Key.liq l_time direction liquidation_amount
  if liquidation_tuple ∈ scanned_data then
    Except.ok (scanned_data, [])
  else do
    let t ← fromtimestamp l_time
    Except.ok (liquidation_tuple :: scanned_data,
      [Announcement.liq direction liquidation_amount t])

/-- One guarded call of the inner closure:
`if amount > MINIMAL_LIQUIDATION: _handle_liquidation(amount, direction)`,
with `over` the (already evaluated) comparison result and the set
threaded through. -/
def liqGuard (over : Bool) (l_time amount : PyVal) (direction : String)
    (scanned_data : List Key) : Except Unit (List Key × List Announcement) :=
  if over then _handle_liquidation l_time amount direction scanned_data
  else Except.ok (scanned_data, [])

/-- `CoinalyzeScanner.handle_liquidation_set`: read `t`, `l`, `s` from the
candle, and for each of long and short run `_handle_liquidation` when the
amount is strictly above `MINIMAL_LIQUIDATION`. -/
def handle_liquidation_set (cfg : Config) (history : List (String × PyVal))
    (scanned_data : List Key) : Except Unit (List Key × List Announcement) := do
  let l_time := dget history "t"
  let l_long := dget history "l"
  let l_short := dget history "s"
  let longOver ← pyGt l_long cfg.MINIMAL_LIQUIDATION
  let r1 ← liqGuard longOver l_time l_long "long" scanned_data
  let shortOver ← pyGt l_short cfg.MINIMAL_LIQUIDATION
  let r2 ← liqGuard shortOver l_time l_short "short" r1.1
  Except.ok (r2.1, r1.2 ++ r2.2)

/-- `CoinalyzeScanner.handle_open_interest`: read `t`, `o`, `h`, `l`,
compute `difference = abs(int(h) - int(l))` (raising when `h` or `l` is
absent or non-numeric), round it with the configured exponent, and when
`difference >= MINIMAL_OPEN_INTEREST` and the key `(t, rounded)` is
unseen, announce and add the key. -/
def handle_open_interest (cfg : Config) (history : List (String × PyVal))
    (scanned_data : List Key) : Except Unit (List Key × List Announcement) := do
  let candle_time := dget history "t"
  let _candle_open := dget history "o"
  let candle_high := dget history "h"
  let candle_low := dget history "l"
  let hi ← pyToInt candle_high
  let lo ← pyToInt candle_low
  let difference : Nat := (hi - lo).natAbs
  let rounded_difference := pyRound difference cfg.ROUNDED_DIFFERENCE_OPEN_INTEREST
  let open_interest_tuple := Key.oi candle_time rounded_difference
  if cfg.MINIMAL_OPEN_INTEREST ≤ (difference : Int) ∧
      open_interest_tuple ∉ scanned_data then do
    let t ← fromtimestamp candle_time
    Except.ok (open_interest_tuple :: scanned_data,
      [Announcement.oi difference t])
  else
    Except.ok (scanned_data, [])

/-- A liquidation-history candle carrying numeric `t`, `l`, `s`. -/
def mkLiqCandle (t l s : Int) : List (String × PyVal) :=
  [("t", PyVal.int t), ("l", PyVal.int l), ("s", PyVal.int s)]

/-- An open-interest candle carrying numeric `t`, `o`, `h`, `l`. -/
def mkOiCandle (t o h l : Int) : List (String × PyVal) :=
  [("t", PyVal.int t), ("o", PyVal.int o), ("h", PyVal.int h), ("l", PyVal.int l)]

/-- A parsed JSON document, as `response.json()` can return it. -/
inductive Json where
  | num (n : Int)
  | str (s : String)
  | null
  | arr (xs : List Json)
  | obj (kvs : List (String × Json))

/-- The outcome of the `requests.get` / `raise_for_status` /
`response.json()` sequence inside the `try` block of `handle_url`:
either some exception was raised there (all are caught), or a parsed
JSON body. -/
inductive HttpResult where
  | failure
  | success (body : Json)

/-- Python's `len` on a parsed JSON value: defined for lists, dicts and
strings, raises `TypeError` otherwise. -/
def pyLen : Json → Except Unit Nat
  | Json.arr xs => Except.ok xs.length
  | Json.obj kvs => Except.ok kvs.length
  | Json.str s => Except.ok s.length
  | _ => Except.error ()

/-- Python's `v[0]` on a parsed JSON value: head of a list, first
character of a string; a dict raises `KeyError` (JSON object keys are
strings, never the int `0`), numbers and `None` are not subscriptable. -/
def pyIndexZero : Json → Except Unit Json
  | Json.arr (x :: _) => Except.ok x
  | Json.arr [] => Except.error ()
  | Json.str s =>
      match s.data with
      | c :: _ => Except.ok (Json.str (String.mk [c]))
      | [] => Except.error ()
  | _ => Except.error ()

/-- Python's `v.get(k, d)`: defined on dicts only; anything else raises
`AttributeError`. -/
def pyGetDefault (j : Json) (k : String) (d : Json) : Except Unit Json :=
  match j with
  | Json.obj kvs =>
      match kvs.find? (fun p => p.1 == k) with
      | Option.some p => Except.ok p.2
      | Option.none => Except.ok d
  | _ => Except.error ()

/-- `CoinalyzeScanner.handle_url`: exceptions inside the `try` block
(request, status check, JSON parsing) yield `[]`; an empty body yields
`[]`; otherwise `response_json[0].get("history", [])` runs OUTSIDE the
`try` block, so its exceptions propagate. -/
def handle_url (resp : HttpResult) : Except Unit Json :=
  match resp with
  | HttpResult.failure => Except.ok (Json.arr [])
  | HttpResult.success response_json => do
      let n ← pyLen response_json
      if n = 0 then Except.ok (Json.arr [])
      else do
        let first ← pyIndexZero response_json
        pyGetDefault first "history" (Json.arr [])

/-- Uppercase a string character by character (Python's `str.upper` on
the ASCII symbols at hand). -/
def upperString (s : String) : String := String.mk (s.data.map Char.toUpper)

/-- Does the second character list start with the first? -/
def strStarts : List Char → List Char → Bool
  | [], _ => true
  | _ :: _, [] => false
  | p :: ps, c :: cs => p == c && strStarts ps cs

/-- Python's `s.startswith(pre)`. -/
def pyStartsWith (s pre : String) : Bool := strStarts pre.data s.data

/-- Python's `v.upper()`: defined on strings only. -/
def pyUpper (j : Json) : Except Unit String :=
  match j with
  | Json.str s => Except.ok (upperString s)
  | _ => Except.error ()

/-- Python's `for x in v`: elements of a list, keys of a dict,
characters of a string; anything else is not iterable. -/
def pyIter (j : Json) : Except Unit (List Json) :=
  match j with
  | Json.arr xs => Except.ok xs
  | Json.obj kvs => Except.ok (kvs.map (fun p => Json.str p.1))
  | Json.str s => Except.ok (s.data.map (fun c => Json.str (String.mk [c])))
  | _ => Except.error ()

/-- The loop body of the `symbols` property: for each market, take
`market.get("symbol", "").upper()` and append it when it starts with
`"BTC"`. -/
def symbolsLoop : List Json → List String → Except Unit (List String)
  | [], symbols => Except.ok symbols
  | market :: rest, symbols => do
      let raw ← pyGetDefault market "symbol" (Json.str "")
      let symbol ← pyUpper raw
      if pyStartsWith symbol "BTC" then symbolsLoop rest (symbols ++ [symbol])
      else symbolsLoop rest symbols

/-- The value computed by the `symbols` cached property from the
future-markets response: iterate `handle_url(FUTURE_MARKETS_URL, False)`,
collect the BTC-prefixed uppercased symbols, and join them with `","`. -/
def symbols_value (resp : HttpResult) : Except Unit String := do
  let j ← handle_url resp
  let markets ← pyIter j
  let symbols ← symbolsLoop markets []
  Except.ok (String.intercalate "," symbols)

/-- One access to the `symbols` `functools.cached_property`: when a cached
value exists it is returned with no HTTP query; on first access the value
is computed (one query to the markets endpoint) and stored.  The result
triple is (value, new cache, number of HTTP queries made). -/
def symbols_access (resp : HttpResult) (cache : Option String) :
    Except Unit (String × Option String × Nat) :=
  match cache with
  | Option.some s => Except.ok (s, Option.some s, 0)
  | Option.none => do
      let s ← symbols_value resp
      Except.ok (s, Option.some s, 1)

/-- Observable outcome of one `convert_speech_to_text` call: whether an
exception propagated out of it, and whether `os.remove` on the temporary
mp3 file was executed. -/
structure SpeechOutcome where
  raised : Bool
  removed : Bool
deriving DecidableEq, Repr

/-- `convert_speech_to_text`: saves the mp3 under `TMP_MP3_DIR`, loads it
from the hardcoded path `/tmp`, plays it, unloads it, and only then —
as the last statement, with no `try`/`finally` — removes the file.
`tmp_mp3_dir` is the `TMP_MP3_DIR` configuration value (the load fails
when it differs from `/tmp`, since the file was saved elsewhere), and
`playback_ok` says whether the audio engine plays without raising. -/
def convert_speech_to_text (tmp_mp3_dir : String) (playback_ok : Bool) :
    SpeechOutcome :=
  if tmp_mp3_dir = "/tmp" then
    if playback_ok then { raised := false, removed := true }
    else { raised := true, removed := false }
  else { raised := true, removed := false }

/-- One detector operation of the polling loop: feed one candle to one
of the two handlers (the loop calls them per history entry). -/
inductive Op where
  | liq (history : List (String × PyVal))
  | oi (history : List (String × PyVal))

/-- Dispatch one operation to its handler. -/
def runOp (cfg : Config) (op : Op) (scanned_data : List Key) :
    Except Unit (List Key × List Announcement) :=
  match op with
  | Op.liq history => handle_liquidation_set cfg history scanned_data
  | Op.oi history => handle_open_interest cfg history scanned_data

/-- Run a sequence of detector operations, threading `scanned_data` and
accumulating all announcements in order. -/
def runOps (cfg : Config) : List Op → List Key → Except Unit (List Key × List Announcement)
  | [], scanned_data => Except.ok (scanned_data, [])
  | op :: rest, scanned_data => do
      let r1 ← runOp cfg op scanned_data
      let r2 ← runOps cfg rest r1.1
      Except.ok (r2.1, r1.2 ++ r2.2)

/-- The dedup key that a given announcement inserts: announcements only
happen when the candle time is a number, and the open-interest key stores
the rounded difference while the announcement carries the raw one. -/
def annKey (cfg : Config) : Announcement → Key
  | Announcement.liq direction amount time => Key.liq (PyVal.int time) direction amount
  | Announcement.oi difference time =>
      Key.oi (PyVal.int time) (pyRound difference cfg.ROUNDED_DIFFERENCE_OPEN_INTEREST)

/-! ### Helper lemmas -/

@[simp]
theorem ok_bind {α β : Type} (x : α) (f : α → Except Unit β) :
    (Except.ok x >>= f : Except Unit β) = f x := rfl

@[simp]
theorem error_bind {α β : Type} (f : α → Except Unit β) :
    (Except.error () >>= f : Except Unit β) = Except.error () := rfl

theorem bind_error_const {α β : Type} (x : Except Unit α) :
    (x >>= fun _ => (Except.error () : Except Unit β)) = Except.error () := by
  cases x with
  | error e => cases e; rfl
  | ok a => rfl

theorem fromtimestamp_ok {v : PyVal} {n : Int}
    (h : fromtimestamp v = Except.ok n) : v = PyVal.int n := by
  cases v <;> simp_all [fromtimestamp]

/-- Pure description of `_handle_liquidation` on an int time and amount. -/
def liqStep1 (t amt : Int) (direction : String) (sd : List Key) :
    List Key × List Announcement :=
  let key := Key.liq (PyVal.int t) direction (PyVal.int amt)
  if key ∈ sd then (sd, [])
  else (key :: sd, [Announcement.liq direction (PyVal.int amt) t])

/-- Pure description of `handle_liquidation_set` on a candle with numeric
`t`, `l`, `s`. -/
def liqStep (cfg : Config) (t l s : Int) (sd : List Key) :
    List Key × List Announcement :=
  let r1 := if cfg.MINIMAL_LIQUIDATION < l then liqStep1 t l "long" sd else (sd, [])
  let r2 := if cfg.MINIMAL_LIQUIDATION < s then liqStep1 t s "short" r1.1 else (r1.1, [])
  (r2.1, r1.2 ++ r2.2)

/-- Pure description of `handle_open_interest` on a candle with numeric
`t`, `h`, `l`. -/
def oiStep (cfg : Config) (t h l : Int) (sd : List Key) :
    List Key × List Announcement :=
  let difference : Nat := (h - l).natAbs
  let key := Key.oi (PyVal.int t) (pyRound difference cfg.ROUNDED_DIFFERENCE_OPEN_INTEREST)
  if cfg.MINIMAL_OPEN_INTEREST ≤ (difference : Int) ∧ key ∉ sd then
    (key :: sd, [Announcement.oi difference t])
  else (sd, [])

theorem _handle_liquidation_int_eq (t amt : Int) (direction : String)
    (sd : List Key) :
    _handle_liquidation (PyVal.int t) (PyVal.int amt) direction sd =
      Except.ok (liqStep1 t amt direction sd) := by
  unfold _handle_liquidation liqStep1
  by_cases h : Key.liq (PyVal.int t) direction (PyVal.int amt) ∈ sd <;>
    simp [h, fromtimestamp]

theorem handle_liquidation_set_dget_eq (cfg : Config)
    {history : List (String × PyVal)} (tn ln sn : Int) (sd : List Key)
    (ht : dget history "t" = PyVal.int tn)
    (hl : dget history "l" = PyVal.int ln)
    (hs : dget history "s" = PyVal.int sn) :
    handle_liquidation_set cfg history sd =
      Except.ok (liqStep cfg tn ln sn sd) := by
  by_cases hL : cfg.MINIMAL_LIQUIDATION < ln <;>
  by_cases hS : cfg.MINIMAL_LIQUIDATION < sn <;>
    simp [handle_liquidation_set, liqGuard, ht, hl, hs, pyGt, hL, hS,
      _handle_liquidation_int_eq, liqStep]

theorem handle_liquidation_set_int_eq (cfg : Config) (t l s : Int)
    (sd : List Key) :
    handle_liquidation_set cfg (mkLiqCandle t l s) sd =
      Except.ok (liqStep cfg t l s sd) :=
  handle_liquidation_set_dget_eq cfg t l s sd rfl rfl rfl

theorem handle_open_interest_dget_eq (cfg : Config)
    {history : List (String × PyVal)} (tn hn ln : Int) (sd : List Key)
    (ht : dget history "t" = PyVal.int tn)
    (hh : dget history "h" = PyVal.int hn)
    (hlo : dget history "l" = PyVal.int ln) :
    handle_open_interest cfg history sd =
      Except.ok (oiStep cfg tn hn ln sd) := by
  simp only [handle_open_interest, ht, hh, hlo, pyToInt, fromtimestamp,
    ok_bind, oiStep]
  split <;> rfl

theorem handle_open_interest_int_eq (cfg : Config) (t o h l : Int)
    (sd : List Key) :
    handle_open_interest cfg (mkOiCandle t o h l) sd =
      Except.ok (oiStep cfg t h l sd) :=
  handle_open_interest_dget_eq cfg t h l sd rfl rfl rfl

theorem bind_ok_iff {α β : Type} {x : Except Unit α} {f : α → Except Unit β}
    {b : β} :
    x >>= f = Except.ok b ↔ ∃ a, x = Except.ok a ∧ f a = Except.ok b := by
  cases x with
  | error e => cases e; simp
  | ok a => simp

theorem _handle_liquidation_mem (cfg : Config) {t amt : PyVal}
    {direction : String} {sd : List Key} {r : List Key × List Announcement}
    (h : _handle_liquidation t amt direction sd = Except.ok r) (k : Key) :
    k ∈ r.1 ↔ (∃ a ∈ r.2, annKey cfg a = k) ∨ k ∈ sd := by
  unfold _handle_liquidation at h
  by_cases hmem : Key.liq t direction amt ∈ sd
  · simp only [hmem, if_pos] at h
    simp only [Except.ok.injEq] at h
    rw [← h]
    simp
  · simp only [hmem, if_neg, not_false_iff] at h
    rw [bind_ok_iff] at h
    obtain ⟨tt, htt, hok⟩ := h
    simp only [Except.ok.injEq] at hok
    rw [← hok, fromtimestamp_ok htt]
    simp [annKey]
    tauto

theorem liqGuard_mem (cfg : Config) {b : Bool} {t amt : PyVal}
    {direction : String} {sd : List Key} {r : List Key × List Announcement}
    (h : liqGuard b t amt direction sd = Except.ok r) (k : Key) :
    k ∈ r.1 ↔ (∃ a ∈ r.2, annKey cfg a = k) ∨ k ∈ sd := by
  unfold liqGuard at h
  cases b
  · simp only [Bool.false_eq_true, if_false, Except.ok.injEq] at h
    rw [← h]
    simp
  · simp only [if_pos] at h
    exact _handle_liquidation_mem cfg h k

theorem handle_liquidation_set_mem (cfg : Config)
    {history : List (String × PyVal)} {sd : List Key}
    {r : List Key × List Announcement}
    (h : handle_liquidation_set cfg history sd = Except.ok r) (k : Key) :
    k ∈ r.1 ↔ (∃ a ∈ r.2, annKey cfg a = k) ∨ k ∈ sd := by
  unfold handle_liquidation_set at h
  simp only [bind_ok_iff] at h
  obtain ⟨b1, hb1, r1, hr1, b2, hb2, r2, hr2, hfin⟩ := h
  simp only [Except.ok.injEq] at hfin
  rw [← hfin]
  have m1 := liqGuard_mem cfg hr1 k
  have m2 := liqGuard_mem cfg hr2 k
  simp only [List.mem_append]
  rw [m2, m1]
  constructor
  · rintro ((⟨a, ha, hk⟩ | (⟨a, ha, hk⟩ | hsd)))
    · exact Or.inl ⟨a, Or.inr ha, hk⟩
    · exact Or.inl ⟨a, Or.inl ha, hk⟩
    · exact Or.inr hsd
  · rintro (⟨a, (ha | ha), hk⟩ | hsd)
    · exact Or.inr (Or.inl ⟨a, ha, hk⟩)
    · exact Or.inl ⟨a, ha, hk⟩
    · exact Or.inr (Or.inr hsd)

theorem handle_open_interest_mem (cfg : Config)
    {history : List (String × PyVal)} {sd : List Key}
    {r : List Key × List Announcement}
    (h : handle_open_interest cfg history sd = Except.ok r) (k : Key) :
    k ∈ r.1 ↔ (∃ a ∈ r.2, annKey cfg a = k) ∨ k ∈ sd := by
  unfold handle_open_interest at h
  simp only [bind_ok_iff] at h
  obtain ⟨hi, hhi, lo, hlo, h⟩ := h
  split at h
  · rw [bind_ok_iff] at h
    obtain ⟨tt, htt, hok⟩ := h
    simp only [Except.ok.injEq] at hok
    rw [← hok, fromtimestamp_ok htt]
    simp [annKey]
    tauto
  · simp only [Except.ok.injEq] at h
    rw [← h]
    simp

theorem runOp_mem (cfg : Config) {op : Op} {sd : List Key}
    {r : List Key × List Announcement}
    (h : runOp cfg op sd = Except.ok r) (k : Key) :
    k ∈ r.1 ↔ (∃ a ∈ r.2, annKey cfg a = k) ∨ k ∈ sd := by
  cases op with
  | liq history => exact handle_liquidation_set_mem cfg h k
  | oi history => exact handle_open_interest_mem cfg h k

theorem runOps_mem (cfg : Config) (ops : List Op) :
    ∀ {sd : List Key} {r : List Key × List Announcement},
      runOps cfg ops sd = Except.ok r → ∀ k : Key,
        k ∈ r.1 ↔ (∃ a ∈ r.2, annKey cfg a = k) ∨ k ∈ sd := by
  induction ops with
  | nil =>
      intro sd r h k
      simp only [runOps, Except.ok.injEq] at h
      rw [← h]
      simp
  | cons op rest ih =>
      intro sd r h k
      simp only [runOps, bind_ok_iff] at h
      obtain ⟨r1, hr1, r2, hr2, hfin⟩ := h
      simp only [Except.ok.injEq] at hfin
      rw [← hfin]
      have m1 := runOp_mem cfg hr1 k
      have m2 := ih hr2 k
      simp only [List.mem_append]
      rw [m2, m1]
      constructor
      · rintro ((⟨a, ha, hk⟩ | (⟨a, ha, hk⟩ | hsd)))
        · exact Or.inl ⟨a, Or.inr ha, hk⟩
        · exact Or.inl ⟨a, Or.inl ha, hk⟩
        · exact Or.inr hsd
      · rintro (⟨a, (ha | ha), hk⟩ | hsd)
        · exact Or.inr (Or.inl ⟨a, ha, hk⟩)
        · exact Or.inl ⟨a, ha, hk⟩
        · exact Or.inr (Or.inr hsd)

theorem liqStep1_mem_self (t a : Int) (d : String) (sd : List Key) :
    Key.liq (PyVal.int t) d (PyVal.int a) ∈ (liqStep1 t a d sd).1 := by
  unfold liqStep1
  by_cases h : Key.liq (PyVal.int t) d (PyVal.int a) ∈ sd <;> simp [h]

theorem liqStep1_mono (t a : Int) (d : String) (sd : List Key) :
    sd ⊆ (liqStep1 t a d sd).1 := by
  unfold liqStep1
  by_cases h : Key.liq (PyVal.int t) d (PyVal.int a) ∈ sd <;> simp [h]

theorem liqStep_mem_long (cfg : Config) (t l s : Int) (sd : List Key)
    (hL : cfg.MINIMAL_LIQUIDATION < l) :
    Key.liq (PyVal.int t) "long" (PyVal.int l) ∈ (liqStep cfg t l s sd).1 := by
  unfold liqStep
  by_cases hS : cfg.MINIMAL_LIQUIDATION < s <;> simp [hL, hS]
  · exact liqStep1_mono t s "short" _ (liqStep1_mem_self t l "long" sd)
  · exact liqStep1_mem_self t l "long" sd

theorem liqStep_mem_short (cfg : Config) (t l s : Int) (sd : List Key)
    (hS : cfg.MINIMAL_LIQUIDATION < s) :
    Key.liq (PyVal.int t) "short" (PyVal.int s) ∈ (liqStep cfg t l s sd).1 := by
  unfold liqStep
  by_cases hL : cfg.MINIMAL_LIQUIDATION < l <;> simp [hL, hS] <;>
    exact liqStep1_mem_self t s "short" _

theorem liqStep_stable (cfg : Config) (t l s : Int) (sd : List Key)
    (hL : cfg.MINIMAL_LIQUIDATION < l →
      Key.liq (PyVal.int t) "long" (PyVal.int l) ∈ sd)
    (hS : cfg.MINIMAL_LIQUIDATION < s →
      Key.liq (PyVal.int t) "short" (PyVal.int s) ∈ sd) :
    liqStep cfg t l s sd = (sd, []) := by
  unfold liqStep liqStep1
  by_cases h1 : cfg.MINIMAL_LIQUIDATION < l <;>
  by_cases h2 : cfg.MINIMAL_LIQUIDATION < s
  · simp [h1, h2, hL h1, hS h2]
  · simp [h1, h2, hL h1]
  · simp [h1, h2, hS h2]
  · simp [h1, h2]

theorem liqStep_out (cfg : Config) (t l s : Int) (sd : List Key) :
    (liqStep cfg t l s sd).2 =
      (if cfg.MINIMAL_LIQUIDATION < l ∧
          Key.liq (PyVal.int t) "long" (PyVal.int l) ∉ sd
       then [Announcement.liq "long" (PyVal.int l) t] else []) ++
      (if cfg.MINIMAL_LIQUIDATION < s ∧
          Key.liq (PyVal.int t) "short" (PyVal.int s) ∉ sd
       then [Announcement.liq "short" (PyVal.int s) t] else []) := by
  have hsl : ("short" : String) ≠ "long" := by decide
  by_cases hL : cfg.MINIMAL_LIQUIDATION < l <;>
  by_cases hkL : Key.liq (PyVal.int t) "long" (PyVal.int l) ∈ sd <;>
  by_cases hS : cfg.MINIMAL_LIQUIDATION < s <;>
  by_cases hkS : Key.liq (PyVal.int t) "short" (PyVal.int s) ∈ sd <;>
    simp [liqStep, liqStep1, hL, hkL, hS, hkS, List.mem_cons, hsl]

/-! ### Claim theorems -/

/-- C1: for every candle whose long (or short) liquidation amount is
strictly greater than the liquidation threshold, the first time the key
`(time, direction, amount)` is processed exactly one announcement occurs
and the key is inserted into the seen set — stated symmetrically for both
directions over an arbitrary candle and seen set; processing the same
candle again — in the same batch or any later one — produces zero further
announcements and leaves the seen set unchanged. -/
theorem claim_C1 (cfg : Config) (t l s : Int) (sd : List Key) :
    ∃ sd1 out1,
      handle_liquidation_set cfg (mkLiqCandle t l s) sd = Except.ok (sd1, out1) ∧
      (cfg.MINIMAL_LIQUIDATION < l →
        Key.liq (PyVal.int t) "long" (PyVal.int l) ∉ sd →
        out1.count (Announcement.liq "long" (PyVal.int l) t) = 1 ∧
        Key.liq (PyVal.int t) "long" (PyVal.int l) ∈ sd1) ∧
      (cfg.MINIMAL_LIQUIDATION < s →
        Key.liq (PyVal.int t) "short" (PyVal.int s) ∉ sd →
        out1.count (Announcement.liq "short" (PyVal.int s) t) = 1 ∧
        Key.liq (PyVal.int t) "short" (PyVal.int s) ∈ sd1) ∧
      handle_liquidation_set cfg (mkLiqCandle t l s) sd1 = Except.ok (sd1, []) := by
  have hls : ("long" : String) ≠ "short" := by decide
  have hsl : ("short" : String) ≠ "long" := by decide
  refine ⟨(liqStep cfg t l s sd).1, (liqStep cfg t l s sd).2,
    handle_liquidation_set_int_eq cfg t l s sd, ?_, ?_, ?_⟩
  · intro hL hfresh
    constructor
    · rw [liqStep_out]
      simp only [hL, hfresh, not_false_iff, and_self, if_true, List.count_append]
      split <;> simp [List.count_cons, hls]
    · exact liqStep_mem_long cfg t l s sd hL
  · intro hS hfresh
    constructor
    · rw [liqStep_out]
      simp only [hS, hfresh, not_false_iff, and_self, if_true, List.count_append]
      split <;> simp [List.count_cons, hsl]
    · exact liqStep_mem_short cfg t l s sd hS
  · rw [handle_liquidation_set_int_eq]
    exact congrArg Except.ok (liqStep_stable cfg t l s _
      (fun h => liqStep_mem_long cfg t l s sd h)
      (fun h => liqStep_mem_short cfg t l s sd h))

/-- Witness for C1 at a candle where only the short amount exceeds the
threshold (threshold 10000, candle `{t:1000, l:500, s:15000}`, empty seen
set): the short-direction implication is live and its hypotheses hold. -/
theorem claim_C1_witness :
    ∃ sd1 out1,
      handle_liquidation_set ⟨10000, 10000000, -6⟩ (mkLiqCandle 1000 500 15000) [] =
        Except.ok (sd1, out1) ∧
      ((10000 : Int) < 500 →
        Key.liq (PyVal.int 1000) "long" (PyVal.int 500) ∉ ([] : List Key) →
        out1.count (Announcement.liq "long" (PyVal.int 500) 1000) = 1 ∧
        Key.liq (PyVal.int 1000) "long" (PyVal.int 500) ∈ sd1) ∧
      ((10000 : Int) < 15000 →
        Key.liq (PyVal.int 1000) "short" (PyVal.int 15000) ∉ ([] : List Key) →
        out1.count (Announcement.liq "short" (PyVal.int 15000) 1000) = 1 ∧
        Key.liq (PyVal.int 1000) "short" (PyVal.int 15000) ∈ sd1) ∧
      handle_liquidation_set ⟨10000, 10000000, -6⟩ (mkLiqCandle 1000 500 15000) sd1 =
        Except.ok (sd1, []) :=
  claim_C1 ⟨10000, 10000000, -6⟩ 1000 500 15000 []

/-- C2: a candle whose liquidation amount is at or below the threshold
(the comparison is strict `>`) produces no announcement for that
direction and inserts no key for that direction; in particular, with
threshold 10000 and candle `{t:1000, l:15000, s:500}`, exactly one long
announcement for 15000 occurs, the key `(1000, "long", 15000)` is added,
and no short announcement occurs. -/
theorem claim_C2 :
    (∀ (cfg : Config) (t l s : Int) (sd : List Key),
      ¬ cfg.MINIMAL_LIQUIDATION < l →
      ∃ sd1 out1,
        handle_liquidation_set cfg (mkLiqCandle t l s) sd = Except.ok (sd1, out1) ∧
        (∀ (amt : PyVal) (tt : Int), Announcement.liq "long" amt tt ∉ out1) ∧
        (∀ tv av : PyVal, Key.liq tv "long" av ∈ sd1 ↔ Key.liq tv "long" av ∈ sd)) ∧
    (∀ (cfg : Config) (t l s : Int) (sd : List Key),
      ¬ cfg.MINIMAL_LIQUIDATION < s →
      ∃ sd1 out1,
        handle_liquidation_set cfg (mkLiqCandle t l s) sd = Except.ok (sd1, out1) ∧
        (∀ (amt : PyVal) (tt : Int), Announcement.liq "short" amt tt ∉ out1) ∧
        (∀ tv av : PyVal, Key.liq tv "short" av ∈ sd1 ↔ Key.liq tv "short" av ∈ sd)) ∧
    handle_liquidation_set ⟨10000, 10000000, -6⟩ (mkLiqCandle 1000 15000 500) [] =
      Except.ok ([Key.liq (PyVal.int 1000) "long" (PyVal.int 15000)],
        [Announcement.liq "long" (PyVal.int 15000) 1000]) := by
  refine ⟨?_, ?_, ?_⟩
  · intro cfg t l s sd hl
    have hls : ("long" : String) ≠ "short" := by decide
    by_cases hS : cfg.MINIMAL_LIQUIDATION < s
    · by_cases hkS : Key.liq (PyVal.int t) "short" (PyVal.int s) ∈ sd
      · refine ⟨sd, [], ?_, ?_, ?_⟩
        · rw [handle_liquidation_set_int_eq]
          simp [liqStep, liqStep1, hl, hS, hkS]
        · simp
        · exact fun tv av => Iff.rfl
      · refine ⟨Key.liq (PyVal.int t) "short" (PyVal.int s) :: sd,
          [Announcement.liq "short" (PyVal.int s) t], ?_, ?_, ?_⟩
        · rw [handle_liquidation_set_int_eq]
          simp [liqStep, liqStep1, hl, hS, hkS]
        · intro amt tt
          simp [hls]
        · intro tv av
          simp [List.mem_cons, hls]
    · refine ⟨sd, [], ?_, ?_, ?_⟩
      · rw [handle_liquidation_set_int_eq]
        simp [liqStep, liqStep1, hl, hS]
      · simp
      · exact fun tv av => Iff.rfl
  · intro cfg t l s sd hs
    have hsl : ("short" : String) ≠ "long" := by decide
    by_cases hL : cfg.MINIMAL_LIQUIDATION < l
    · by_cases hkL : Key.liq (PyVal.int t) "long" (PyVal.int l) ∈ sd
      · refine ⟨sd, [], ?_, ?_, ?_⟩
        · rw [handle_liquidation_set_int_eq]
          simp [liqStep, liqStep1, hL, hs, hkL]
        · simp
        · exact fun tv av => Iff.rfl
      · refine ⟨Key.liq (PyVal.int t) "long" (PyVal.int l) :: sd,
          [Announcement.liq "long" (PyVal.int l) t], ?_, ?_, ?_⟩
        · rw [handle_liquidation_set_int_eq]
          simp [liqStep, liqStep1, hL, hs, hkL]
        · intro amt tt
          simp [hsl]
        · intro tv av
          simp [List.mem_cons, hsl]
    · refine ⟨sd, [], ?_, ?_, ?_⟩
      · rw [handle_liquidation_set_int_eq]
        simp [liqStep, liqStep1, hL, hs]
      · simp
      · exact fun tv av => Iff.rfl
  · rfl

/-- Witness for C2: a candle with both amounts at or below the threshold
from the empty seen set. -/
theorem claim_C2_witness :
    ∃ sd1 out1,
      handle_liquidation_set ⟨10000, 10000000, -6⟩ (mkLiqCandle 2000 300 400) [] =
        Except.ok (sd1, out1) ∧
      (∀ (amt : PyVal) (tt : Int), Announcement.liq "long" amt tt ∉ out1) ∧
      (∀ tv av : PyVal,
        Key.liq tv "long" av ∈ sd1 ↔ Key.liq tv "long" av ∈ ([] : List Key)) :=
  claim_C2.1 ⟨10000, 10000000, -6⟩ 2000 300 400 [] (by decide)

/-- C4: distinct liquidation keys are announced independently — when both
long and short exceed the threshold both are announced (keys differ in the
direction component), and two observations with the same time and
direction but different raw amounts are both announced (the key contains
the unrounded amount). -/
theorem claim_C4 :
    (∀ (cfg : Config) (t l s : Int) (sd : List Key),
      cfg.MINIMAL_LIQUIDATION < l → cfg.MINIMAL_LIQUIDATION < s →
      Key.liq (PyVal.int t) "long" (PyVal.int l) ∉ sd →
      Key.liq (PyVal.int t) "short" (PyVal.int s) ∉ sd →
      handle_liquidation_set cfg (mkLiqCandle t l s) sd =
        Except.ok (Key.liq (PyVal.int t) "short" (PyVal.int s) ::
            Key.liq (PyVal.int t) "long" (PyVal.int l) :: sd,
          [Announcement.liq "long" (PyVal.int l) t,
           Announcement.liq "short" (PyVal.int s) t])) ∧
    (∀ (cfg : Config) (t l1 l2 : Int) (sd : List Key),
      cfg.MINIMAL_LIQUIDATION < l1 → cfg.MINIMAL_LIQUIDATION < l2 → l1 ≠ l2 →
      Key.liq (PyVal.int t) "long" (PyVal.int l1) ∉ sd →
      Key.liq (PyVal.int t) "long" (PyVal.int l2) ∉ sd →
      handle_liquidation_set cfg (mkLiqCandle t l1 cfg.MINIMAL_LIQUIDATION) sd =
        Except.ok (Key.liq (PyVal.int t) "long" (PyVal.int l1) :: sd,
          [Announcement.liq "long" (PyVal.int l1) t]) ∧
      handle_liquidation_set cfg (mkLiqCandle t l2 cfg.MINIMAL_LIQUIDATION)
          (Key.liq (PyVal.int t) "long" (PyVal.int l1) :: sd) =
        Except.ok (Key.liq (PyVal.int t) "long" (PyVal.int l2) ::
            Key.liq (PyVal.int t) "long" (PyVal.int l1) :: sd,
          [Announcement.liq "long" (PyVal.int l2) t])) := by
  have hsl : ("short" : String) ≠ "long" := by decide
  constructor
  · intro cfg t l s sd hl hs hkL hkS
    rw [handle_liquidation_set_int_eq]
    simp [liqStep, liqStep1, hl, hs, hkL, hkS, hsl]
  · intro cfg t l1 l2 sd h1 h2 hne hk1 hk2
    have hlt : ¬ cfg.MINIMAL_LIQUIDATION < cfg.MINIMAL_LIQUIDATION := lt_irrefl _
    constructor
    · rw [handle_liquidation_set_int_eq]
      simp [liqStep, liqStep1, h1, hlt, hk1]
    · rw [handle_liquidation_set_int_eq]
      simp [liqStep, liqStep1, h2, hlt, hk2, List.mem_cons, Ne.symm hne]

/-- Witness for C4 at concrete inputs: both directions over threshold,
then two long amounts 15000 and 16000 at the same timestamp. -/
theorem claim_C4_witness :
    (handle_liquidation_set ⟨10000, 10000000, -6⟩ (mkLiqCandle 1000 20000 30000) [] =
      Except.ok (Key.liq (PyVal.int 1000) "short" (PyVal.int 30000) ::
          Key.liq (PyVal.int 1000) "long" (PyVal.int 20000) :: [],
        [Announcement.liq "long" (PyVal.int 20000) 1000,
         Announcement.liq "short" (PyVal.int 30000) 1000])) ∧
    (handle_liquidation_set ⟨10000, 10000000, -6⟩ (mkLiqCandle 1000 15000 10000) [] =
      Except.ok (Key.liq (PyVal.int 1000) "long" (PyVal.int 15000) :: [],
        [Announcement.liq "long" (PyVal.int 15000) 1000]) ∧
     handle_liquidation_set ⟨10000, 10000000, -6⟩ (mkLiqCandle 1000 16000 10000)
        (Key.liq (PyVal.int 1000) "long" (PyVal.int 15000) :: []) =
      Except.ok (Key.liq (PyVal.int 1000) "long" (PyVal.int 16000) ::
          Key.liq (PyVal.int 1000) "long" (PyVal.int 15000) :: [],
        [Announcement.liq "long" (PyVal.int 16000) 1000])) :=
  ⟨claim_C4.1 ⟨10000, 10000000, -6⟩ 1000 20000 30000 [] (by decide) (by decide)
      (by simp) (by simp),
   claim_C4.2 ⟨10000, 10000000, -6⟩ 1000 15000 16000 [] (by decide) (by decide)
      (by decide) (by simp) (by simp)⟩

/-- C3: `handle_open_interest` computes `difference = |high − low|` as an
integer and announces and inserts the key `(time, rounded_difference)`
exactly when `difference ≥ MINIMAL_OPEN_INTEREST` (non-strict, unlike the
liquidation `>`) and the key is unseen; two raw differences at the same
timestamp that round to the same value announce only once; and at
threshold 1000000, exponent −6, candle `{t:2000, o:5, h:3000000,
l:1900000}` the difference is 1100000, the key is `(2000, 1000000)`, and
exactly one announcement occurs. -/
theorem claim_C3 :
    (∀ (cfg : Config) (t o h l : Int) (sd : List Key),
      cfg.MINIMAL_OPEN_INTEREST ≤ ((h - l).natAbs : Int) →
      Key.oi (PyVal.int t)
          (pyRound (h - l).natAbs cfg.ROUNDED_DIFFERENCE_OPEN_INTEREST) ∉ sd →
      handle_open_interest cfg (mkOiCandle t o h l) sd =
        Except.ok (Key.oi (PyVal.int t)
            (pyRound (h - l).natAbs cfg.ROUNDED_DIFFERENCE_OPEN_INTEREST) :: sd,
          [Announcement.oi (h - l).natAbs t])) ∧
    (∀ (cfg : Config) (t o h l : Int) (sd : List Key),
      (¬ cfg.MINIMAL_OPEN_INTEREST ≤ ((h - l).natAbs : Int) ∨
        Key.oi (PyVal.int t)
          (pyRound (h - l).natAbs cfg.ROUNDED_DIFFERENCE_OPEN_INTEREST) ∈ sd) →
      handle_open_interest cfg (mkOiCandle t o h l) sd = Except.ok (sd, [])) ∧
    (∀ (cfg : Config) (t o1 o2 h1 l1 h2 l2 : Int) (sd : List Key),
      pyRound (h1 - l1).natAbs cfg.ROUNDED_DIFFERENCE_OPEN_INTEREST =
        pyRound (h2 - l2).natAbs cfg.ROUNDED_DIFFERENCE_OPEN_INTEREST →
      cfg.MINIMAL_OPEN_INTEREST ≤ ((h1 - l1).natAbs : Int) →
      cfg.MINIMAL_OPEN_INTEREST ≤ ((h2 - l2).natAbs : Int) →
      Key.oi (PyVal.int t)
          (pyRound (h1 - l1).natAbs cfg.ROUNDED_DIFFERENCE_OPEN_INTEREST) ∉ sd →
      handle_open_interest cfg (mkOiCandle t o1 h1 l1) sd =
        Except.ok (Key.oi (PyVal.int t)
            (pyRound (h1 - l1).natAbs cfg.ROUNDED_DIFFERENCE_OPEN_INTEREST) :: sd,
          [Announcement.oi (h1 - l1).natAbs t]) ∧
      handle_open_interest cfg (mkOiCandle t o2 h2 l2)
          (Key.oi (PyVal.int t)
            (pyRound (h1 - l1).natAbs cfg.ROUNDED_DIFFERENCE_OPEN_INTEREST) :: sd) =
        Except.ok (Key.oi (PyVal.int t)
            (pyRound (h1 - l1).natAbs cfg.ROUNDED_DIFFERENCE_OPEN_INTEREST) :: sd, [])) ∧
    (((3000000 - 1900000 : Int)).natAbs = 1100000 ∧
      pyRound 1100000 (-6) = 1000000 ∧
      handle_open_interest ⟨10000, 1000000, -6⟩ (mkOiCandle 2000 5 3000000 1900000) [] =
        Except.ok ([Key.oi (PyVal.int 2000) 1000000],
          [Announcement.oi 1100000 2000])) := by
  refine ⟨?_, ?_, ?_, by decide, by decide, by rfl⟩
  · intro cfg t o h l sd hge hk
    rw [handle_open_interest_int_eq]
    rw [Int.natCast_natAbs] at hge
    simp [oiStep, hge, hk]
  · intro cfg t o h l sd hcond
    rw [handle_open_interest_int_eq]
    rcases hcond with hlt | hk
    · rw [Int.natCast_natAbs] at hlt
      simp [oiStep, hlt]
    · simp [oiStep, hk]
  · intro cfg t o1 o2 h1 l1 h2 l2 sd hround hge1 hge2 hk
    rw [Int.natCast_natAbs] at hge1 hge2
    constructor
    · rw [handle_open_interest_int_eq]
      simp [oiStep, hge1, hk]
    · rw [handle_open_interest_int_eq]
      simp [oiStep, ← hround, List.mem_cons]

/-- Witness for C3: the spec's open-interest scenario plus a second
candle `{h:3050000, l:1900000}` whose raw difference 1150000 rounds to the
same key and is therefore not announced again. -/
theorem claim_C3_witness :
    handle_open_interest ⟨10000, 1000000, -6⟩ (mkOiCandle 2000 5 3000000 1900000) [] =
      Except.ok (Key.oi (PyVal.int 2000)
          (pyRound ((3000000 : Int) - 1900000).natAbs (-6)) :: [],
        [Announcement.oi ((3000000 : Int) - 1900000).natAbs 2000]) ∧
    handle_open_interest ⟨10000, 1000000, -6⟩ (mkOiCandle 2000 7 3050000 1900000)
        (Key.oi (PyVal.int 2000)
          (pyRound ((3000000 : Int) - 1900000).natAbs (-6)) :: []) =
      Except.ok (Key.oi (PyVal.int 2000)
          (pyRound ((3000000 : Int) - 1900000).natAbs (-6)) :: [], []) :=
  claim_C3.2.2.1 ⟨10000, 1000000, -6⟩ 2000 5 7 3000000 1900000 3050000 1900000 []
    (by decide) (by decide) (by decide) (by simp)

/-- C5 as stated is false: a successfully parsed, non-empty body whose
first element is not an object (here the JSON body `[5]`) makes
`handle_url` raise an `AttributeError` on `.get` — that call sits outside
the `try` block — instead of returning `[]`. -/
theorem claim_C5_counterexample :
    handle_url (HttpResult.success (Json.arr [Json.num 5])) = Except.error () := rfl

/-- C5 (amended): exceptions raised inside the `try` block (transport,
HTTP status, JSON parsing) are caught and yield `[]`, and an empty JSON
body yields `[]`; for a non-empty array whose first element is an object
the `history` field (defaulting to `[]`) is returned — but a parsed
non-empty body whose first element is not an object raises outside the
`try` block and propagates (see the counterexample). -/
theorem claim_C5 :
    handle_url HttpResult.failure = Except.ok (Json.arr []) ∧
    handle_url (HttpResult.success (Json.arr [])) = Except.ok (Json.arr []) ∧
    (∀ (hv : Json) (kvs : List (String × Json)) (rest : List Json),
      handle_url (HttpResult.success
          (Json.arr (Json.obj (("history", hv) :: kvs) :: rest))) =
        Except.ok hv) ∧
    (∀ rest : List Json,
      handle_url (HttpResult.success (Json.arr (Json.obj [] :: rest))) =
        Except.ok (Json.arr [])) := by
  refine ⟨rfl, rfl, ?_, ?_⟩
  · intro hv kvs rest
    simp [handle_url, pyLen, pyIndexZero, pyGetDefault, List.find?]
  · intro rest
    simp [handle_url, pyLen, pyIndexZero, pyGetDefault, List.find?]

/-- C7 as stated is false: on the playback-failure exit path (playing the
file raises) `os.remove` — the last statement of
`convert_speech_to_text`, with no `try`/`finally` — is never executed, so
the temporary mp3 file is not deleted. -/
theorem claim_C7_counterexample :
    convert_speech_to_text "/tmp" false = { raised := true, removed := false } := rfl

/-- C7 (amended): the temporary mp3 file is deleted exactly on the
non-raising exit path of `convert_speech_to_text`; when loading or
playback raises, the exception propagates before `os.remove` runs and the
file is leaked.  (Additionally, the file is saved under `TMP_MP3_DIR` but
loaded from the hardcoded `/tmp`, so any other configured directory makes
the load itself fail.) -/
theorem claim_C7 :
    (∀ (tmp_mp3_dir : String) (playback_ok : Bool),
      (convert_speech_to_text tmp_mp3_dir playback_ok).removed =
        !(convert_speech_to_text tmp_mp3_dir playback_ok).raised) ∧
    convert_speech_to_text "/tmp" true = { raised := false, removed := true } := by
  constructor
  · intro d ok
    unfold convert_speech_to_text
    by_cases hd : d = "/tmp" <;> cases ok <;> simp [hd]
  · rfl

/-- C6: starting from the empty seen set, after any successful sequence
of detector operations a dedup key is in the seen set if and only if an
announcement for that key was emitted — no key is added without its
announcement and no announcement happens without its key being added. -/
theorem claim_C6 (cfg : Config) (ops : List Op) (sd : List Key)
    (out : List Announcement)
    (h : runOps cfg ops [] = Except.ok (sd, out)) (k : Key) :
    k ∈ sd ↔ ∃ a ∈ out, annKey cfg a = k := by
  have hm := runOps_mem cfg ops h k
  simpa using hm

/-- Witness for C6: one batch containing the same liquidation candle
twice, checked at the long key it announces. -/
theorem claim_C6_witness :
    Key.liq (PyVal.int 1000) "long" (PyVal.int 15000) ∈
        [Key.liq (PyVal.int 1000) "long" (PyVal.int 15000)] ↔
      ∃ a ∈ [Announcement.liq "long" (PyVal.int 15000) 1000],
        annKey ⟨10000, 10000000, -6⟩ a =
          Key.liq (PyVal.int 1000) "long" (PyVal.int 15000) :=
  claim_C6 ⟨10000, 10000000, -6⟩
    [Op.liq (mkLiqCandle 1000 15000 500), Op.liq (mkLiqCandle 1000 15000 500)]
    [Key.liq (PyVal.int 1000) "long" (PyVal.int 15000)]
    [Announcement.liq "long" (PyVal.int 15000) 1000]
    (by rfl)
    (Key.liq (PyVal.int 1000) "long" (PyVal.int 15000))

/-- C9: the seen set grows monotonically — every successful call of
either handler maps a state `sd` to a state containing `sd`; no detector
operation removes keys. -/
theorem claim_C9 :
    (∀ (cfg : Config) (history : List (String × PyVal)) (sd : List Key)
        (r : List Key × List Announcement),
      handle_liquidation_set cfg history sd = Except.ok r → sd ⊆ r.1) ∧
    (∀ (cfg : Config) (history : List (String × PyVal)) (sd : List Key)
        (r : List Key × List Announcement),
      handle_open_interest cfg history sd = Except.ok r → sd ⊆ r.1) := by
  constructor
  · intro cfg history sd r h k hk
    exact (handle_liquidation_set_mem cfg h k).mpr (Or.inr hk)
  · intro cfg history sd r h k hk
    exact (handle_open_interest_mem cfg h k).mpr (Or.inr hk)

/-- Witness for C9: a pre-existing open-interest key survives a
liquidation call that inserts a new key in front of it. -/
theorem claim_C9_witness :
    [Key.oi (PyVal.int 1) 5] ⊆
      (Key.liq (PyVal.int 1000) "long" (PyVal.int 15000) :: [Key.oi (PyVal.int 1) 5]) :=
  claim_C9.1 ⟨10000, 10000000, -6⟩ (mkLiqCandle 1000 15000 500)
    [Key.oi (PyVal.int 1) 5]
    (Key.liq (PyVal.int 1000) "long" (PyVal.int 15000) :: [Key.oi (PyVal.int 1) 5],
      [Announcement.liq "long" (PyVal.int 15000) 1000])
    (by rfl)

/-- C10: the detectors are total exactly on candles carrying their
required numeric fields — `handle_liquidation_set` never raises on a
candle with numeric `t`, `l`, `s`, but raises at the threshold comparison
when `l` or `s` is absent (`.get` yields `None` and `None > int` is a
`TypeError`) instead of treating the candle as below threshold; likewise
`handle_open_interest` succeeds on numeric `t`, `o`, `h`, `l` and raises
when `h` or `l` is absent or non-numeric, since `int()` is applied to
both unconditionally. -/
theorem claim_C10 :
    (∀ (cfg : Config) (history : List (String × PyVal)) (sd : List Key)
        (tn ln sn : Int),
      dget history "t" = PyVal.int tn → dget history "l" = PyVal.int ln →
      dget history "s" = PyVal.int sn →
      ∃ r, handle_liquidation_set cfg history sd = Except.ok r) ∧
    (∀ (cfg : Config) (history : List (String × PyVal)) (sd : List Key),
      dget history "l" = PyVal.none →
      handle_liquidation_set cfg history sd = Except.error ()) ∧
    (∀ (cfg : Config) (history : List (String × PyVal)) (sd : List Key)
        (tn ln : Int),
      dget history "t" = PyVal.int tn → dget history "l" = PyVal.int ln →
      dget history "s" = PyVal.none →
      handle_liquidation_set cfg history sd = Except.error ()) ∧
    (∀ (cfg : Config) (history : List (String × PyVal)) (sd : List Key)
        (tn hn ln : Int),
      dget history "t" = PyVal.int tn → dget history "h" = PyVal.int hn →
      dget history "l" = PyVal.int ln →
      ∃ r, handle_open_interest cfg history sd = Except.ok r) ∧
    (∀ (cfg : Config) (history : List (String × PyVal)) (sd : List Key),
      dget history "h" = PyVal.none →
      handle_open_interest cfg history sd = Except.error ()) ∧
    (∀ (cfg : Config) (history : List (String × PyVal)) (sd : List Key)
        (hn : Int),
      dget history "h" = PyVal.int hn → dget history "l" = PyVal.none →
      handle_open_interest cfg history sd = Except.error ()) ∧
    (∀ (cfg : Config) (history : List (String × PyVal)) (sd : List Key)
        (s : String),
      dget history "h" = PyVal.str s → pyStrToInt s = Option.none →
      handle_open_interest cfg history sd = Except.error ()) := by
  refine ⟨?_, ?_, ?_, ?_, ?_, ?_, ?_⟩
  · intro cfg history sd tn ln sn ht hl hs
    exact ⟨liqStep cfg tn ln sn sd,
      handle_liquidation_set_dget_eq cfg tn ln sn sd ht hl hs⟩
  · intro cfg history sd hl
    simp [handle_liquidation_set, hl, pyGt]
  · intro cfg history sd tn ln ht hl hs
    simp [handle_liquidation_set, ht, hl, hs, pyGt, bind_error_const]
  · intro cfg history sd tn hn ln ht hh hlo
    exact ⟨oiStep cfg tn hn ln sd,
      handle_open_interest_dget_eq cfg tn hn ln sd ht hh hlo⟩
  · intro cfg history sd hh
    simp [handle_open_interest, hh, pyToInt]
  · intro cfg history sd hn hh hlo
    simp [handle_open_interest, hh, hlo, pyToInt]
  · intro cfg history sd s hh hs
    simp [handle_open_interest, hh, hs, pyToInt]

/-- Witness for C10: the liquidation detector succeeds on a numeric
candle and raises when `s` is absent; the open-interest detector raises
on a non-numeric `h`. -/
theorem claim_C10_witness :
    (∃ r, handle_liquidation_set ⟨10000, 10000000, -6⟩
        (mkLiqCandle 1000 15000 500) [] = Except.ok r) ∧
    handle_liquidation_set ⟨10000, 10000000, -6⟩
        [("t", PyVal.int 1000), ("l", PyVal.int 15000)] [] = Except.error () ∧
    handle_open_interest ⟨10000, 10000000, -6⟩
        [("t", PyVal.int 2000), ("h", PyVal.str "oops"), ("l", PyVal.int 3)] [] =
      Except.error () :=
  ⟨claim_C10.1 ⟨10000, 10000000, -6⟩ (mkLiqCandle 1000 15000 500) []
      1000 15000 500 rfl rfl rfl,
   claim_C10.2.2.1 ⟨10000, 10000000, -6⟩
      [("t", PyVal.int 1000), ("l", PyVal.int 15000)] [] 1000 15000 rfl rfl rfl,
   claim_C10.2.2.2.2.2.2 ⟨10000, 10000000, -6⟩
      [("t", PyVal.int 2000), ("h", PyVal.str "oops"), ("l", PyVal.int 3)] []
      "oops" rfl rfl⟩

theorem symbolsLoop_markets (ms : List String) (acc : List String) :
    symbolsLoop (ms.map (fun s => Json.obj [("symbol", Json.str s)])) acc =
      Except.ok (acc ++
        (ms.map upperString).filter (fun x => pyStartsWith x "BTC")) := by
  induction ms generalizing acc with
  | nil => simp [symbolsLoop]
  | cons m rest ih =>
      have hget : pyGetDefault (Json.obj [("symbol", Json.str m)]) "symbol"
          (Json.str "") = Except.ok (Json.str m) := rfl
      simp only [List.map_cons, symbolsLoop, hget, ok_bind, pyUpper]
      by_cases hb : pyStartsWith (upperString m) "BTC" = true
      · simp [hb, ih, List.filter_cons]
      · simp [hb, ih, List.filter_cons]

/-- The future-markets response shape handed to `handle_url`: a JSON
array whose first object carries a `history` list of market objects, each
with a string `symbol` field. -/
def mkMarketsResp (syms : List String) : HttpResult :=
  HttpResult.success (Json.arr [Json.obj [("history",
    Json.arr (syms.map (fun s => Json.obj [("symbol", Json.str s)])))]])

/-- C8: the `symbols` value equals the comma-joined list of the
uppercased market symbols starting with `"BTC"`; it is computed (with
exactly one markets-endpoint query) on first access and returned
unchanged, with zero further queries, on every later access of the
`functools.cached_property`. -/
theorem claim_C8 (syms : List String) (joined : String)
    (hj : joined = String.intercalate ","
      ((syms.map upperString).filter (fun x => pyStartsWith x "BTC"))) :
    symbols_access (mkMarketsResp syms) Option.none =
      Except.ok (joined, Option.some joined, 1) ∧
    symbols_access (mkMarketsResp syms) (Option.some joined) =
      Except.ok (joined, Option.some joined, 0) := by
  subst hj
  constructor
  · have hurl : handle_url (mkMarketsResp syms) =
        Except.ok (Json.arr (syms.map (fun s =>
          Json.obj [("symbol", Json.str s)]))) := rfl
    simp only [symbols_access, symbols_value, hurl, ok_bind, pyIter,
      symbolsLoop_markets, List.nil_append]
  · rfl

/-- Witness for C8 at a concrete market list: `btcusdt` and `BTCUSD`
survive the BTC-prefix filter after uppercasing, `ETHUSDT` does not. -/
theorem claim_C8_witness :
    symbols_access (mkMarketsResp ["btcusdt", "ETHUSDT", "BTCUSD"]) Option.none =
      Except.ok ("BTCUSDT,BTCUSD", Option.some "BTCUSDT,BTCUSD", 1) ∧
    symbols_access (mkMarketsResp ["btcusdt", "ETHUSDT", "BTCUSD"])
        (Option.some "BTCUSDT,BTCUSD") =
      Except.ok ("BTCUSDT,BTCUSD", Option.some "BTCUSDT,BTCUSD", 0) :=
  claim_C8 ["btcusdt", "ETHUSDT", "BTCUSD"] "BTCUSDT,BTCUSD" (by rfl)

end Coinalyze
